import Mathlib

/-!
Verification of the caching proxy server (`main.go`): cache store,
cache key derivation, response capture and the request dispatcher.
Go machine values are embedded as `Nat`/`Int` (durations and times in
nanoseconds), Go maps as association lists, and the stateful handler as
explicit state passing.
-/

set_option maxRecDepth 4096

/-! ## Header maps

`http.Header` is `map[string][]string` whose `Add`/`Set`/`Get` methods
canonicalise the key via `textproto.CanonicalMIMEHeaderKey`. -/

/-- A Go `http.Header`: association list from header name to its values. -/
abbrev HeaderMap := List (String × List String)

/-- Valid header-field byte per Go `textproto` (token characters). -/
def isTokenChar (c : Char) : Bool :=
  c.isAlphanum
    || ['!', '#', '$', '%', '&', '*', '+', '-', '.', '^', '_', '|', '~'].contains c
    || c.toNat = 39 || c.toNat = 96

/-- One pass of MIME-header canonicalisation: uppercase a letter that starts
the string or follows a hyphen, lowercase the rest. -/
def canonicalChars : Bool → List Char → List Char
  | _, [] => []
  | upper, c :: cs =>
    (if upper then c.toUpper else c.toLower) :: canonicalChars (c = '-') cs

/-- Go `textproto.CanonicalMIMEHeaderKey`: canonicalise when every byte is a
valid token character, otherwise return the key unchanged. -/
def canonicalMIMEHeaderKey (s : String) : String :=
  if s.data.all isTokenChar then ⟨canonicalChars true s.data⟩ else s

/-- Values stored under an (already canonical) key; first match wins, and the
empty list stands for Go's missing-key `nil` slice. -/
def lookupValues : HeaderMap → String → List String
  | [], _ => []
  | (k0, vs) :: rest, k => if k0 = k then vs else lookupValues rest k

/-- `Header.Add` after canonicalisation: append the value to the key's slice. -/
def headerAddCanon : HeaderMap → String → String → HeaderMap
  | [], k, v => [(k, [v])]
  | (k0, vs) :: rest, k, v =>
    if k0 = k then (k0, vs ++ [v]) :: rest else (k0, vs) :: headerAddCanon rest k v

/-- `Header.Set` after canonicalisation: replace the key's slice by `[v]`. -/
def headerSetCanon : HeaderMap → String → String → HeaderMap
  | [], k, v => [(k, [v])]
  | (k0, vs) :: rest, k, v =>
    if k0 = k then (k0, [v]) :: rest else (k0, vs) :: headerSetCanon rest k v

/-- Go `http.Header.Add`. -/
def headerAdd (h : HeaderMap) (key value : String) : HeaderMap :=
  headerAddCanon h (canonicalMIMEHeaderKey key) value

/-- Go `http.Header.Set`. -/
def headerSet (h : HeaderMap) (key value : String) : HeaderMap :=
  headerSetCanon h (canonicalMIMEHeaderKey key) value

/-- Go `http.Header.Values`. -/
def headerGetValues (h : HeaderMap) (key : String) : List String :=
  lookupValues h (canonicalMIMEHeaderKey key)

/-- Go `http.Header.Get`: first value for the canonical key, `""` if absent. -/
def headerGet (h : HeaderMap) (key : String) : String :=
  (headerGetValues h key).headD ""

/-! ## Cache store (`CacheEntry`, `Cache` of `main.go`) -/

/-- One cached HTTP response (`CacheEntry` in `main.go`): body bytes, header
map, status code, capture time and TTL (both in nanoseconds). -/
structure CacheEntry where
  body : List Nat
  headers : HeaderMap
  statusCode : Nat
  timestamp : Int
  ttl : Int
  deriving Repr, DecidableEq

/-- The cache store's `entries` field: a Go `map[string]*CacheEntry`,
embedded as an association list with unique keys. -/
abbrev Cache := List (String × CacheEntry)

/-- `NewCache`: the empty entries map. -/
def NewCache : Cache := []

/-- Well-formedness carried by every Go map: keys are unique. -/
def Cache.WF (c : Cache) : Prop := (c.map Prod.fst).Nodup

/-- Go map assignment `c.entries[key] = entry` (used by `Cache.Set`):
replace the existing binding or append a new one. -/
def Cache.set : Cache → String → CacheEntry → Cache
  | [], k, e => [(k, e)]
  | (k0, e0) :: rest, k, e =>
    if k0 = k then (k0, e) :: rest else (k0, e0) :: Cache.set rest k e

/-- Go `delete(c.entries, key)` (the lazy eviction inside `Cache.Get`). -/
def Cache.erase : Cache → String → Cache
  | [], _ => []
  | (k0, e0) :: rest, k =>
    if k0 = k then rest else (k0, e0) :: Cache.erase rest k

/-- `Cache.Get` at observation time `now`: a missing key is a miss; a present
entry with `time.Since(entry.Timestamp) > entry.TTL` is deleted and reported
as a miss; otherwise the entry is returned.  The returned cache is the store
after the call (the lazy-eviction side effect made explicit). -/
def Cache.get (now : Int) (c : Cache) (key : String) : Option CacheEntry × Cache :=
  match c.lookup key with
  | none => (none, c)
  | some entry =>
    if now - entry.timestamp > entry.ttl then (none, Cache.erase c key)
    else (some entry, c)

/-- `Cache.Clear`: replace the entries map by a fresh empty map. -/
def Cache.clear (_ : Cache) : Cache := []

/-- `Cache.Size`: number of entries currently stored. -/
def Cache.size (c : Cache) : Nat := c.length

/-! ### Basic store lemmas -/

theorem erase_length_of_mem {c : Cache} {key : String}
    (h : c.lookup key ≠ none) :
    (Cache.erase c key).length + 1 = c.length := by
  induction c with
  | nil => simp [List.lookup] at h
  | cons hd tl ih =>
    by_cases hk : hd.1 = key
    · simp [Cache.erase, hk]
    · have hk' : (key == hd.1) = false := by
        simp [beq_iff_eq]; exact fun e => hk e.symm
      have h' : tl.lookup key ≠ none := by
        simpa [List.lookup, hk'] using h
      simp [Cache.erase, hk, ih h']

theorem lookup_eq_none_of_not_mem {c : Cache} {key : String}
    (h : key ∉ c.map Prod.fst) : c.lookup key = none := by
  induction c with
  | nil => rfl
  | cons hd tl ih =>
    simp only [List.map_cons, List.mem_cons] at h
    push_neg at h
    have hk : (key == hd.1) = false := by simp [beq_iff_eq]; exact h.1
    simp [List.lookup, hk, ih h.2]

theorem erase_lookup_eq_none {c : Cache} {key : String}
    (hwf : Cache.WF c) :
    (Cache.erase c key).lookup key = none := by
  induction c with
  | nil => simp [Cache.erase]
  | cons hd tl ih =>
    have hwf' : Cache.WF tl := (List.nodup_cons.mp hwf).2
    by_cases hk : hd.1 = key
    · have hnm : hd.1 ∉ tl.map Prod.fst := (List.nodup_cons.mp hwf).1
      have : tl.lookup key = none := lookup_eq_none_of_not_mem (hk ▸ hnm)
      simpa [Cache.erase, hk] using this
    · have hk' : (key == hd.1) = false := by
        simp [beq_iff_eq]; exact fun e => hk e.symm
      simp [Cache.erase, hk, List.lookup, hk', ih hwf']

/-! ## Lock discipline of the store methods

`Cache` holds a `sync.RWMutex`; each method is a straight-line sequence of
lock and map operations, recorded here as traces read off `main.go`. -/

/-- What a holder of the store's `RWMutex` currently owns. -/
inductive LockState where
  | unlocked
  | readLocked
  | writeLocked
  deriving Repr, DecidableEq

/-- One step of a store method: a lock transition or a map access. -/
inductive CacheOp where
  | rLock
  | rUnlock
  | lock
  | unlock
  | mapLookup
  | mapDelete
  | mapStore
  | mapReplace
  deriving Repr, DecidableEq

/-- Map operations that mutate the entries map. -/
def opMutates : CacheOp → Bool
  | .mapDelete => true
  | .mapStore => true
  | .mapReplace => true
  | _ => false

/-- `mutationsExclusive st ops`: every mutating map operation in `ops` is
performed while the write (exclusive) lock is held. -/
def mutationsExclusive : LockState → List CacheOp → Bool
  | _, [] => true
  | _, CacheOp.rLock :: rest => mutationsExclusive .readLocked rest
  | _, CacheOp.lock :: rest => mutationsExclusive .writeLocked rest
  | _, CacheOp.rUnlock :: rest => mutationsExclusive .unlocked rest
  | _, CacheOp.unlock :: rest => mutationsExclusive .unlocked rest
  | st, op :: rest =>
    (!opMutates op || st = .writeLocked) && mutationsExclusive st rest

/-- Trace of `Cache.Get` (`main.go` lines 42-57): `RLock`, map read, and — on
a found-but-stale key — `delete` on the entries map, then `RUnlock` (the
deferred unlock). -/
def cacheGetOps (keyExists stale : Bool) : List CacheOp :=
  [CacheOp.rLock, CacheOp.mapLookup]
    ++ (if keyExists && stale then [CacheOp.mapDelete] else [])
    ++ [CacheOp.rUnlock]

/-- Trace of `Cache.Set`: `Lock`, map assignment, `Unlock`. -/
def cacheSetOps : List CacheOp := [CacheOp.lock, CacheOp.mapStore, CacheOp.unlock]

/-- Trace of `Cache.Clear`: `Lock`, map replacement, `Unlock`. -/
def cacheClearOps : List CacheOp := [CacheOp.lock, CacheOp.mapReplace, CacheOp.unlock]

/-! ## Cache key derivation (`generateCacheKey`) -/

/-- The pre-digest encoding of `generateCacheKey`:
`fmt.Sprintf("%s:%s:%s", req.Method, req.URL.String(), req.Header.Get("User-Agent"))`. -/
def cacheKeyData (method url userAgent : String) : String :=
  method ++ ":" ++ url ++ ":" ++ userAgent

/-- UTF-8 bytes of a Go string. -/
def stringBytes (s : String) : List Nat :=
  s.toUTF8.toList.map (fun b => b.toNat)

/-- 2^32, the modulus of MD5's 32-bit words. -/
def w32 : Nat := 4294967296

/-- Rotate a 32-bit word left by `n` bits. -/
def rotl32 (x n : Nat) : Nat :=
  (x * 2 ^ n + x / 2 ^ (32 - n)) % w32

/-- The 64 MD5 sine-derived round constants (`crypto/md5` table `K`). -/
def md5K : List Nat :=
  [0xd76aa478, 0xe8c7b756, 0x242070db, 0xc1bdceee,
   0xf57c0faf, 0x4787c62a, 0xa8304613, 0xfd469501,
   0x698098d8, 0x8b44f7af, 0xffff5bb1, 0x895cd7be,
   0x6b901122, 0xfd987193, 0xa679438e, 0x49b40821,
   0xf61e2562, 0xc040b340, 0x265e5a51, 0xe9b6c7aa,
   0xd62f105d, 0x02441453, 0xd8a1e681, 0xe7d3fbc8,
   0x21e1cde6, 0xc33707d6, 0xf4d50d87, 0x455a14ed,
   0xa9e3e905, 0xfcefa3f8, 0x676f02d9, 0x8d2a4c8a,
   0xfffa3942, 0x8771f681, 0x6d9d6122, 0xfde5380c,
   0xa4beea44, 0x4bdecfa9, 0xf6bb4b60, 0xbebfbc70,
   0x289b7ec6, 0xeaa127fa, 0xd4ef3085, 0x04881d05,
   0xd9d4d039, 0xe6db99e5, 0x1fa27cf8, 0xc4ac5665,
   0xf4292244, 0x432aff97, 0xab9423a7, 0xfc93a039,
   0x655b59c3, 0x8f0ccc92, 0xffeff47d, 0x85845dd1,
   0x6fa87e4f, 0xfe2ce6e0, 0xa3014314, 0x4e0811a1,
   0xf7537e82, 0xbd3af235, 0x2ad7d2bb, 0xeb86d391]

/-- The MD5 per-round left-rotation amounts. -/
def md5S : List Nat :=
  [7, 12, 17, 22, 7, 12, 17, 22, 7, 12, 17, 22, 7, 12, 17, 22,
   5, 9, 14, 20, 5, 9, 14, 20, 5, 9, 14, 20, 5, 9, 14, 20,
   4, 11, 16, 23, 4, 11, 16, 23, 4, 11, 16, 23, 4, 11, 16, 23,
   6, 10, 15, 21, 6, 10, 15, 21, 6, 10, 15, 21, 6, 10, 15, 21]

/-- The four 32-bit MD5 chaining variables. -/
structure MD5State where
  a : Nat
  b : Nat
  c : Nat
  d : Nat
  deriving Repr, DecidableEq

/-- MD5 initial chaining state. -/
def md5Init : MD5State :=
  { a := 0x67452301, b := 0xefcdab89, c := 0x98badcfe, d := 0x10325476 }

/-- Bitwise NOT within 32 bits. -/
def not32 (x : Nat) : Nat := w32 - 1 - x

/-- One of the 64 MD5 rounds; `m` gives the block's 16 message words. -/
def md5Round (m : Nat → Nat) (st : MD5State) (i : Nat) : MD5State :=
  let fg : Nat × Nat :=
    if i < 16 then ((st.b &&& st.c) ||| (not32 st.b &&& st.d), i)
    else if i < 32 then ((st.d &&& st.b) ||| (not32 st.d &&& st.c), (5 * i + 1) % 16)
    else if i < 48 then (st.b ^^^ st.c ^^^ st.d, (3 * i + 5) % 16)
    else (st.c ^^^ (st.b ||| not32 st.d), (7 * i) % 16)
  let mixed := (fg.1 + st.a + md5K.getD i 0 + m fg.2) % w32
  { a := st.d, b := (st.b + rotl32 mixed (md5S.getD i 0)) % w32, c := st.b, d := st.c }

/-- Little-endian 32-bit word `j` of a 64-byte block. -/
def leWord (block : List Nat) (j : Nat) : Nat :=
  block.getD (4 * j) 0 + block.getD (4 * j + 1) 0 * 256
    + block.getD (4 * j + 2) 0 * 65536 + block.getD (4 * j + 3) 0 * 16777216

/-- Process one 64-byte block: 64 rounds, then add into the chaining state. -/
def md5ProcessBlock (st : MD5State) (block : List Nat) : MD5State :=
  let r := (List.range 64).foldl (md5Round (leWord block)) st
  { a := (st.a + r.a) % w32, b := (st.b + r.b) % w32,
    c := (st.c + r.c) % w32, d := (st.d + r.d) % w32 }

/-- Split a byte list into 64-byte chunks. -/
def chunk64 : List Nat → List (List Nat)
  | [] => []
  | b :: rest => (b :: rest.take 63) :: chunk64 (rest.drop 63)
termination_by l => l.length
decreasing_by simp [List.length_drop]; omega

/-- Little-endian bytes of `n`, `k` bytes long. -/
def leBytes (k n : Nat) : List Nat :=
  (List.range k).map (fun i => n / 2 ^ (8 * i) % 256)

/-- MD5 padding: `0x80`, zeros to 56 mod 64, then the 64-bit bit length. -/
def md5Pad (msg : List Nat) : List Nat :=
  msg ++ [128] ++ List.replicate ((119 - msg.length % 64) % 64) 0
    ++ leBytes 8 (msg.length * 8 % 2 ^ 64)

/-- Lowercase hex digit. -/
def hexDigit (n : Nat) : Char :=
  if n < 10 then Char.ofNat (48 + n) else Char.ofNat (87 + n)

/-- Two lowercase hex digits of a byte. -/
def byteHex (b : Nat) : List Char := [hexDigit (b / 16 % 16), hexDigit (b % 16)]

/-- `hex.EncodeToString(md5.Sum(msg))`: the 16 digest bytes in lowercase hex. -/
def md5Hex (msg : List Nat) : String :=
  let st := (chunk64 (md5Pad msg)).foldl md5ProcessBlock md5Init
  ⟨((leBytes 4 st.a ++ leBytes 4 st.b ++ leBytes 4 st.c ++ leBytes 4 st.d).map byteHex).flatten⟩

/-- `generateCacheKey` (`main.go` lines 350-354): hex MD5 of
`method ++ ":" ++ url ++ ":" ++ userAgent`. -/
def generateCacheKey (method url userAgent : String) : String :=
  md5Hex (stringBytes (cacheKeyData method url userAgent))

/-! ## The client-facing response writer

Modelled from the spec's transport collaborator (the standard library
`http.ResponseWriter` served by the HTTP server): `Header()` exposes a
mutable map; the first `WriteHeader` flushes the status line together with a
snapshot of that map; `Write` first performs an implicit `WriteHeader(200)`
if none happened; header-map changes made after the status line is flushed
are never delivered ("if status/body have already been flushed to the
transport before this header is set, the header is lost"). -/

/-- State of the real client-facing response writer: its live header map,
the flushed status line (once committed), the header snapshot sent with it,
and the body bytes already sent. -/
structure RealWriter where
  headers : HeaderMap
  committedStatus : Option Nat
  sentHeaders : HeaderMap
  sentBody : List Nat
  deriving Repr, DecidableEq

/-- A fresh writer: nothing flushed yet. -/
def RealWriter.init : RealWriter :=
  { headers := [], committedStatus := none, sentHeaders := [], sentBody := [] }

/-- `w.WriteHeader(status)`: on the first call, flush the status line and the
current header map; later calls are ignored by the transport. -/
def RealWriter.writeHeader (w : RealWriter) (status : Nat) : RealWriter :=
  match w.committedStatus with
  | some _ => w
  | none => { w with committedStatus := some status, sentHeaders := w.headers }

/-- `w.Write(data)`: implicit `WriteHeader(200)` if uncommitted, then the
bytes go to the client in order. -/
def RealWriter.write (w : RealWriter) (data : List Nat) : RealWriter :=
  let w1 := w.writeHeader 200
  { w1 with sentBody := w1.sentBody ++ data }

/-- `w.Header().Set(k, v)` on the real writer. -/
def RealWriter.setHeader (w : RealWriter) (key value : String) : RealWriter :=
  { w with headers := headerSet w.headers key value }

/-- `w.Header().Add(k, v)` on the real writer. -/
def RealWriter.addHeader (w : RealWriter) (key value : String) : RealWriter :=
  { w with headers := headerAdd w.headers key value }

/-! ## The response recorder (`responseRecorder`, `main.go` lines 420-439) -/

/-- `responseRecorder`: wraps the real writer, accumulating status, its own
header map (the map its `Header()` returns), and the body. -/
structure responseRecorder where
  writer : RealWriter
  statusCode : Nat
  headers : HeaderMap
  body : List Nat
  deriving Repr, DecidableEq

/-- `responseRecorder.WriteHeader`: record the status and forward it to the
underlying writer. -/
def responseRecorder.WriteHeader (rr : responseRecorder) (statusCode : Nat) :
    responseRecorder :=
  { rr with statusCode := statusCode, writer := rr.writer.writeHeader statusCode }

/-- `responseRecorder.Write`: append to the recorded body and forward the
bytes to the underlying writer. -/
def responseRecorder.Write (rr : responseRecorder) (data : List Nat) :
    responseRecorder :=
  { rr with body := rr.body ++ data, writer := rr.writer.write data }

/-- What the forwarding collaborator does through the writer interface it is
handed: header-map edits (via `Header()`), a status line, body bytes. -/
inductive WriterAction where
  | setHeader (key value : String)
  | addHeader (key value : String)
  | writeHeader (status : Nat)
  | write (data : List Nat)
  deriving Repr, DecidableEq

/-- Interpret one action against the recorder.  Header-map edits land in the
recorder's own `headers` map (its `Header()` method returns that map, not the
real writer's); status and body go through `WriteHeader`/`Write`. -/
def recorderStep (rr : responseRecorder) : WriterAction → responseRecorder
  | .setHeader k v => { rr with headers := headerSet rr.headers k v }
  | .addHeader k v => { rr with headers := headerAdd rr.headers k v }
  | .writeHeader s => rr.WriteHeader s
  | .write d => rr.Write d

/-- Run the forwarding collaborator's actions through the recorder. -/
def runRecorder (rr : responseRecorder) (actions : List WriterAction) :
    responseRecorder :=
  actions.foldl recorderStep rr

/-- The recorder as built on the miss path (`main.go` lines 386-391), over a
fresh client-facing writer: `statusCode: 200`, empty header map, empty body. -/
def initialRecorder : responseRecorder :=
  { writer := RealWriter.init, statusCode := 200, headers := [], body := [] }

/-! ## The request dispatcher (`handleRequest`, `main.go` lines 356-408) -/

/-- One nanosecond-denominated minute (`time.Minute`). -/
def timeMinute : Int := 60 * 1000000000

/-- Result of handling one request: the client-facing writer's final state,
the cache store afterwards, and whether the forwarding collaborator ran. -/
structure HandleResult where
  writer : RealWriter
  cache : Cache
  forwarded : Bool
  deriving Repr, DecidableEq

/-- `handleRequest` at observation time `now`.  The hit path copies the
entry's headers into the outbound response, sets `X-Cache: HIT`, writes the
status and body, and returns without forwarding.  The miss path runs the
forwarding collaborator (its behaviour given as `origin`) through a fresh
`responseRecorder` over the real writer, caches the captured response when
the recorded status is in `[200, 400)` with `createdAt = now` and a 5-minute
TTL, and finally sets `X-Cache: MISS` on the real writer's header map. -/
def handleRequest (now : Int) (cache : Cache) (method url userAgent : String)
    (origin : List WriterAction) : HandleResult :=
  let cacheKey := generateCacheKey method url userAgent
  match Cache.get now cache cacheKey with
  | (some entry, cache1) =>
    let w0 := entry.headers.foldl
      (fun w kv => kv.2.foldl (fun w v => RealWriter.addHeader w kv.1 v) w)
      RealWriter.init
    let w1 := (w0.setHeader "X-Cache" "HIT").writeHeader entry.statusCode
    { writer := w1.write entry.body, cache := cache1, forwarded := false }
  | (none, cache1) =>
    let rec1 := runRecorder initialRecorder origin
    let cache2 :=
      if 200 ≤ rec1.statusCode ∧ rec1.statusCode < 400 then
        Cache.set cache1 cacheKey
          { body := rec1.body, headers := rec1.headers,
            statusCode := rec1.statusCode, timestamp := now,
            ttl := 5 * timeMinute }
      else cache1
    { writer := rec1.writer.setHeader "X-Cache" "MISS", cache := cache2,
      forwarded := true }

/-! ## The proxy server and Go URL parsing (`NewProxyServer`) -/

/-- The slice of a parsed Go URL that construction depends on. -/
structure GoUrl where
  scheme : String
  rest : String
  deriving Repr, DecidableEq

/-- A Go URL is absolute iff its scheme is non-empty (`url.URL.IsAbs`). -/
def GoUrl.IsAbs (u : GoUrl) : Bool := u.scheme ≠ ""

/-- Modelled from the spec: the standard library's `url.Parse` scheme
splitter (`getScheme`), which the repository calls but does not contain.
Scan from the start: letters extend a candidate scheme; a digit, `+`, `-` or
`.` in first position means no scheme; a `:` in first position is the
"missing protocol scheme" error, later it ends the scheme; any other byte
means the whole string is scheme-less. -/
def getSchemeAux (orig : String) : List Char → List Char →
    Except String (String × String)
  | _, [] => Except.ok ("", orig)
  | acc, c :: cs =>
    if c.isAlpha then getSchemeAux orig (acc ++ [c]) cs
    else if c.isDigit || c = '+' || c = '-' || c = '.' then
      if acc = [] then Except.ok ("", orig) else getSchemeAux orig (acc ++ [c]) cs
    else if c = ':' then
      if acc = [] then Except.error "missing protocol scheme"
      else Except.ok (⟨acc⟩, ⟨cs⟩)
    else Except.ok ("", orig)

/-- Scheme and remainder of a raw URL, or a parse error. -/
def getScheme (s : String) : Except String (String × String) :=
  getSchemeAux s [] s.data

/-- Control bytes are rejected by `url.Parse`. -/
def stringHasCTL (s : String) : Bool :=
  s.data.any (fun c => c.toNat < 32 || c.toNat = 127)

/-- First `/`-separated segment of a string. -/
def firstSegment (s : String) : List Char :=
  s.data.takeWhile (fun c => c ≠ '/')

/-- Does the string start with a slash? -/
def headIsSlash (s : String) : Bool :=
  match s.data with
  | [] => false
  | c :: _ => c = '/'

/-- ASCII lowercase of a string (`strings.ToLower` on schemes). -/
def lowerStr (s : String) : String := ⟨s.data.map Char.toLower⟩

/-- Modelled from the spec: the standard library's `url.Parse`, restricted to
the checks that decide acceptance for the origin strings at issue — the
control-byte rejection, the scheme splitter, and the colon-in-first-segment
rule for scheme-less URLs.  Relative (scheme-less) URLs parse successfully;
escape and host validation of deeper components is not modelled. -/
def urlParse (rawURL : String) : Except String GoUrl :=
  if stringHasCTL rawURL then Except.error "invalid control character in URL"
  else if rawURL = "*" then Except.ok { scheme := "", rest := "*" }
  else
    match getScheme rawURL with
    | Except.error e => Except.error e
    | Except.ok (scheme, rest) =>
      if scheme = "" && !headIsSlash rest && (firstSegment rest).contains ':' then
        Except.error "first path segment in URL cannot contain colon"
      else Except.ok { scheme := lowerStr scheme, rest := rest }

/-- `ProxyServer` (`main.go` lines 330-335): parsed origin, its own cache
store, the port. -/
structure ProxyServer where
  origin : GoUrl
  cache : Cache
  port : Int
  deriving Repr, DecidableEq

/-- `NewProxyServer` (`main.go` lines 337-348): parse the origin URL,
propagate a parse error, otherwise construct the server with a fresh cache. -/
def NewProxyServer (originURL : String) (port : Int) : Except String ProxyServer :=
  match urlParse originURL with
  | Except.error e => Except.error ("invalid origin URL: " ++ e)
  | Except.ok origin =>
    Except.ok { origin := origin, cache := NewCache, port := port }

/-- Did construction succeed? -/
def constructionOk : Except String ProxyServer → Bool
  | Except.ok _ => true
  | Except.error _ => false

/-- The constructed server's origin, when construction succeeded. -/
def constructedOrigin : Except String ProxyServer → Option GoUrl
  | Except.ok ps => some ps.origin
  | Except.error _ => none

/-- Success of the modelled `url.Parse`. -/
def parseOk : Except String GoUrl → Bool
  | Except.ok _ => true
  | Except.error _ => false

/-! ## Supporting lemmas for the dispatcher -/

theorem lookup_cons_self (k : String) (e : CacheEntry) (t : Cache) :
    ((k, e) :: t).lookup k = some e := by
  simp [List.lookup]

/-- `Cache.get` on a miss rewrites `handleRequest` to its miss branch. -/
theorem handleRequest_miss (now : Int) (cache : Cache) (method url ua : String)
    (origin : List WriterAction)
    (hmiss : (Cache.get now cache (generateCacheKey method url ua)).1 = none) :
    handleRequest now cache method url ua origin =
      { writer := (runRecorder initialRecorder origin).writer.setHeader "X-Cache" "MISS",
        cache :=
          if 200 ≤ (runRecorder initialRecorder origin).statusCode
              ∧ (runRecorder initialRecorder origin).statusCode < 400 then
            Cache.set (Cache.get now cache (generateCacheKey method url ua)).2
              (generateCacheKey method url ua)
              { body := (runRecorder initialRecorder origin).body,
                headers := (runRecorder initialRecorder origin).headers,
                statusCode := (runRecorder initialRecorder origin).statusCode,
                timestamp := now, ttl := 5 * timeMinute }
          else (Cache.get now cache (generateCacheKey method url ua)).2,
        forwarded := true } := by
  have hpair : Cache.get now cache (generateCacheKey method url ua)
      = (none, (Cache.get now cache (generateCacheKey method url ua)).2) := by
    exact Prod.ext_iff.mpr ⟨hmiss, rfl⟩
  simp only [handleRequest]
  rw [hpair]

/-- `Cache.get` on a hit rewrites `handleRequest` to its hit branch. -/
theorem handleRequest_hit (now : Int) (cache : Cache) (method url ua : String)
    (origin : List WriterAction) (entry : CacheEntry)
    (hhit : (Cache.get now cache (generateCacheKey method url ua)).1 = some entry) :
    handleRequest now cache method url ua origin =
      { writer :=
          ((((entry.headers.foldl
              (fun w kv => kv.2.foldl (fun w v => RealWriter.addHeader w kv.1 v) w)
              RealWriter.init).setHeader "X-Cache" "HIT").writeHeader
                entry.statusCode).write entry.body),
        cache := (Cache.get now cache (generateCacheKey method url ua)).2,
        forwarded := false } := by
  have hpair : Cache.get now cache (generateCacheKey method url ua)
      = (some entry, (Cache.get now cache (generateCacheKey method url ua)).2) := by
    exact Prod.ext_iff.mpr ⟨hhit, rfl⟩
  simp only [handleRequest]
  rw [hpair]

/-- The recorder's status is untouched by actions other than `writeHeader`. -/
theorem runRecorder_statusCode (origin : List WriterAction) :
    ∀ rr : responseRecorder, (∀ s, WriterAction.writeHeader s ∉ origin) →
      (runRecorder rr origin).statusCode = rr.statusCode := by
  induction origin with
  | nil => intro rr _; rfl
  | cons a rest ih =>
    intro rr h
    have hrest : ∀ s, WriterAction.writeHeader s ∉ rest := by
      intro s hs
      exact h s (List.mem_cons_of_mem a hs)
    have hstep : (recorderStep rr a).statusCode = rr.statusCode := by
      cases a with
      | setHeader k v => rfl
      | addHeader k v => rfl
      | write d => rfl
      | writeHeader s => exact absurd (List.mem_cons_self _ _) (h s)
    calc (runRecorder rr (a :: rest)).statusCode
        = (runRecorder (recorderStep rr a) rest).statusCode := rfl
      _ = (recorderStep rr a).statusCode := ih (recorderStep rr a) hrest
      _ = rr.statusCode := hstep

/-- The real writer underneath the recorder keeps an empty header map (and
hence an empty flushed-header snapshot): the collaborator's header edits land
in the recorder's own map. -/
theorem runRecorder_writer_headers_empty (origin : List WriterAction) :
    ∀ rr : responseRecorder,
      rr.writer.headers = [] → rr.writer.sentHeaders = [] →
      (runRecorder rr origin).writer.headers = []
        ∧ (runRecorder rr origin).writer.sentHeaders = [] := by
  induction origin with
  | nil => intro rr h1 h2; exact ⟨h1, h2⟩
  | cons a rest ih =>
    intro rr h1 h2
    cases a with
    | setHeader k v => exact ih _ h1 h2
    | addHeader k v => exact ih _ h1 h2
    | writeHeader s =>
      refine ih _ ?_ ?_ <;>
        simp [recorderStep, responseRecorder.WriteHeader, RealWriter.writeHeader] <;>
        cases hc : rr.writer.committedStatus <;> simp [hc, h1, h2]
    | write d =>
      refine ih _ ?_ ?_ <;>
        simp [recorderStep, responseRecorder.Write, RealWriter.write,
          RealWriter.writeHeader] <;>
        cases hc : rr.writer.committedStatus <;> simp [hc, h1, h2]

/-- Adding values only touches the writer's header map. -/
theorem foldAdd_inner_writer (vs : List String) (k : String) :
    ∀ w : RealWriter,
      vs.foldl (fun w v => RealWriter.addHeader w k v) w
        = { w with headers := vs.foldl (fun h v => headerAdd h k v) w.headers } := by
  induction vs with
  | nil => intro w; rfl
  | cons v rest ih =>
    intro w
    simpa [RealWriter.addHeader] using ih (RealWriter.addHeader w k v)

/-- The hit path's header-copying double loop only touches the writer's
header map. -/
theorem foldAdd_outer_writer (hs : HeaderMap) :
    ∀ w : RealWriter,
      hs.foldl (fun w kv => kv.2.foldl (fun w v => RealWriter.addHeader w kv.1 v) w) w
        = { w with headers :=
              hs.foldl (fun h kv => kv.2.foldl (fun h v => headerAdd h kv.1 v) h) w.headers } := by
  induction hs with
  | nil => intro w; rfl
  | cons kv rest ih =>
    intro w
    calc rest.foldl _ (kv.2.foldl (fun w v => RealWriter.addHeader w kv.1 v) w)
        = rest.foldl _ ({ w with headers := kv.2.foldl (fun h v => headerAdd h kv.1 v) w.headers }) := by
          rw [foldAdd_inner_writer]
      _ = _ := ih _

/-- Effect of one canonical `Add` on every bucket. -/
theorem lookupValues_addCanon (h : HeaderMap) (ck c2 v : String) :
    lookupValues (headerAddCanon h ck v) c2 =
      if c2 = ck then lookupValues h ck ++ [v] else lookupValues h c2 := by
  induction h with
  | nil =>
    by_cases hc : c2 = ck
    · simp [headerAddCanon, lookupValues, hc]
    · have hcs : ¬ ck = c2 := fun e => hc e.symm
      simp [headerAddCanon, lookupValues, hc, hcs]
  | cons hd tl ih =>
    obtain ⟨k0, vs⟩ := hd
    by_cases h1 : k0 = ck
    · simp only [headerAddCanon, if_pos h1]
      by_cases h2 : c2 = ck
      · have e1 : k0 = c2 := h1.trans h2.symm
        simp [lookupValues, e1, h1, h2]
      · have e1 : ¬ k0 = c2 := fun e => h2 (e.symm.trans h1)
        simp [lookupValues, e1, h2]
    · simp only [headerAddCanon, if_neg h1]
      by_cases h2 : k0 = c2
      · have hns : ¬ c2 = ck := fun e => h1 (h2.trans e)
        simp [lookupValues, h2, hns]
      · simp [lookupValues, h1, h2, ih]

/-- Effect of one canonical `Set` on every bucket. -/
theorem lookupValues_setCanon (h : HeaderMap) (ck c2 v : String) :
    lookupValues (headerSetCanon h ck v) c2 =
      if c2 = ck then [v] else lookupValues h c2 := by
  induction h with
  | nil =>
    by_cases hc : c2 = ck
    · simp [headerSetCanon, lookupValues, hc]
    · have hcs : ¬ ck = c2 := fun e => hc e.symm
      simp [headerSetCanon, lookupValues, hc, hcs]
  | cons hd tl ih =>
    obtain ⟨k0, vs⟩ := hd
    by_cases h1 : k0 = ck
    · simp only [headerSetCanon, if_pos h1]
      by_cases h2 : c2 = ck
      · have e1 : k0 = c2 := h1.trans h2.symm
        simp [lookupValues, e1, h1, h2]
      · have e1 : ¬ k0 = c2 := fun e => h2 (e.symm.trans h1)
        simp [lookupValues, e1, h2]
    · simp only [headerSetCanon, if_neg h1]
      by_cases h2 : k0 = c2
      · have hns : ¬ c2 = ck := fun e => h1 (h2.trans e)
        simp [lookupValues, h2, hns]
      · simp [lookupValues, h1, h2, ih]

/-- Streaming a whole value list into one bucket. -/
theorem lookupValues_foldAdd_same (vs : List String) (ck c2 : String) :
    ∀ h : HeaderMap,
      lookupValues (vs.foldl (fun h v => headerAddCanon h ck v) h) c2 =
        if c2 = ck then lookupValues h ck ++ vs else lookupValues h c2 := by
  induction vs with
  | nil =>
    intro h
    by_cases hc : c2 = ck <;> simp [hc]
  | cons v rest ih =>
    intro h
    rw [List.foldl_cons, ih]
    by_cases hc : c2 = ck
    · simp [lookupValues_addCanon, hc]
    · simp [lookupValues_addCanon, hc]

/-- Buckets only grow along the copying loop. -/
theorem mem_lookupValues_foldAdd_mono (hs : HeaderMap) (c : String) (v : String) :
    ∀ h : HeaderMap, v ∈ lookupValues h c →
      v ∈ lookupValues
        (hs.foldl (fun h kv => kv.2.foldl (fun h w => headerAdd h kv.1 w) h) h) c := by
  induction hs with
  | nil => intro h hv; exact hv
  | cons kv rest ih =>
    intro h hv
    refine ih _ ?_
    simp only [headerAdd, lookupValues_foldAdd_same]
    by_cases hc : c = canonicalMIMEHeaderKey kv.1
    · rw [if_pos hc, ← hc]
      exact List.mem_append_left _ hv
    · rw [if_neg hc]
      exact hv

/-- Every header/value pair of `hs` ends up in its canonical bucket after the
copying loop. -/
theorem mem_lookupValues_foldAdd (hs : HeaderMap) (kv : String × List String)
    (v : String) (hkv : kv ∈ hs) (hv : v ∈ kv.2) :
    ∀ h : HeaderMap,
      v ∈ lookupValues
        (hs.foldl (fun h kv => kv.2.foldl (fun h w => headerAdd h kv.1 w) h) h)
        (canonicalMIMEHeaderKey kv.1) := by
  induction hs with
  | nil => cases hkv
  | cons hd rest ih =>
    intro h
    rcases List.mem_cons.mp hkv with he | ht
    · subst he
      refine mem_lookupValues_foldAdd_mono rest _ v _ ?_
      simp only [headerAdd, lookupValues_foldAdd_same, if_pos rfl]
      exact List.mem_append_right _ hv
    · exact ih ht _

/-! ## Claim theorems -/

/-- Claim C3 (behaviour at the failing configuration): the lazy-eviction
`delete` inside `Cache.Get` on a found-but-stale key runs while only the
shared read lock (`RLock`) is held, not an exclusive lock, whereas `Set` and
`Clear` do mutate under the exclusive lock. -/
theorem cacheGet_stale_delete_not_under_exclusive_lock :
    mutationsExclusive LockState.unlocked (cacheGetOps true true) = false
    ∧ mutationsExclusive LockState.unlocked cacheSetOps = true
    ∧ mutationsExclusive LockState.unlocked cacheClearOps = true := by
  decide

/-- Claim C4: `Get` returns the entry iff the key is present and
`now − createdAt ≤ ttl`; on a present-but-stale key it reports a miss,
removes the entry on that access, and `Size` decreases by one. -/
theorem cacheGet_freshness_and_lazy_eviction (now : Int) (c : Cache)
    (key : String) (hwf : Cache.WF c) :
    (∀ entry : CacheEntry,
      (Cache.get now c key).1 = some entry ↔
        c.lookup key = some entry ∧ now - entry.timestamp ≤ entry.ttl)
    ∧ (∀ entry : CacheEntry, c.lookup key = some entry →
        now - entry.timestamp > entry.ttl →
        (Cache.get now c key).1 = none
        ∧ ((Cache.get now c key).2).lookup key = none
        ∧ Cache.size (Cache.get now c key).2 + 1 = Cache.size c) := by
  constructor
  · intro entry
    cases hl : c.lookup key with
    | none => simp [Cache.get, hl]
    | some e =>
      by_cases hs : now - e.timestamp > e.ttl
      · simp only [Cache.get, hl, if_pos hs]
        constructor
        · intro h; cases h
        · rintro ⟨he, hf⟩
          rw [Option.some.injEq] at he
          subst he
          omega
      · simp only [Cache.get, hl, if_neg hs]
        constructor
        · intro h
          rw [Option.some.injEq] at h
          subst h
          exact ⟨rfl, by omega⟩
        · rintro ⟨he, _⟩
          exact he.symm ▸ rfl
  · intro entry hl hs
    have hget : Cache.get now c key = (none, Cache.erase c key) := by
      simp [Cache.get, hl, hs]
    rw [hget]
    refine ⟨rfl, erase_lookup_eq_none hwf, ?_⟩
    exact erase_length_of_mem (by rw [hl]; simp)

/-- Witness for C4 at a concrete stale entry: at `now = 200` an entry created
at `0` with `ttl = 100` is reported as a miss, removed, and the size drops
from one to zero. -/
theorem cacheGet_freshness_and_lazy_eviction_witness :
    (Cache.get 200 [("k", ⟨[], [], 200, 0, 100⟩)] "k").1 = none
    ∧ ((Cache.get 200 [("k", ⟨[], [], 200, 0, 100⟩)] "k").2).lookup "k" = none
    ∧ Cache.size (Cache.get 200 [("k", ⟨[], [], 200, 0, 100⟩)] "k").2 + 1
        = Cache.size [("k", ⟨[], [], 200, 0, 100⟩)] :=
  (cacheGet_freshness_and_lazy_eviction 200 [("k", ⟨[], [], 200, 0, 100⟩)] "k"
      (by simp [Cache.WF])).2 ⟨[], [], 200, 0, 100⟩ (by decide) (by decide)

/-- Claim C8: after `Clear()` the store is empty — `Size()` is zero and every
key (in particular every previously cached one) misses at every time. -/
theorem cacheClear_empties_store (c : Cache) (key : String) (now : Int) :
    Cache.size (Cache.clear c) = 0
    ∧ (Cache.get now (Cache.clear c) key).1 = none :=
  ⟨rfl, rfl⟩


/-- Claim C5 (counterexample): the `":"` separator also occurs inside URLs
and User-Agents, so two requests that differ in URL and User-Agent produce
the same pre-digest string — and hence the same cache key — without any
digest collision. -/
theorem generateCacheKey_separator_collision :
    generateCacheKey "GET" "a:b" "c" = generateCacheKey "GET" "a" "b:c"
    ∧ ¬ ("a:b" = "a" ∧ "c" = "b:c") := by
  constructor
  · exact congrArg (fun s => md5Hex (stringBytes s))
      (by decide : cacheKeyData "GET" "a:b" "c" = cacheKeyData "GET" "a" "b:c")
  · intro h
    exact absurd h.1 (by decide)

/-- Claim C5 (amended): `generateCacheKey` is pure and deterministic, and the
key is a function of the colon-joined concatenation
`method ++ ":" ++ url ++ ":" ++ userAgent` alone; identical triples always
agree, but distinct triples with equal concatenations also agree. -/
theorem generateCacheKey_determined_by_encoding
    (m1 u1 a1 m2 u2 a2 : String)
    (h : cacheKeyData m1 u1 a1 = cacheKeyData m2 u2 a2) :
    generateCacheKey m1 u1 a1 = generateCacheKey m2 u2 a2 :=
  congrArg (fun s => md5Hex (stringBytes s)) h

/-- Witness for the amended C5 at a concrete ambiguous pair. -/
theorem generateCacheKey_determined_by_encoding_witness :
    generateCacheKey "POST" "u:x" "y" = generateCacheKey "POST" "u" "x:y" :=
  generateCacheKey_determined_by_encoding "POST" "u:x" "y" "POST" "u" "x:y"
    (by decide)

/-- Claim C9 (counterexample): construction succeeds on the origin `"hello"`,
which Go URL parsing accepts as a relative reference — its parsed scheme is
empty, so it is not an absolute URL. -/
theorem newProxyServer_accepts_relative_origin :
    constructionOk (NewProxyServer "hello" 8080) = true
    ∧ constructedOrigin (NewProxyServer "hello" 8080)
        = some { scheme := "", rest := "hello" }
    ∧ GoUrl.IsAbs { scheme := "", rest := "hello" } = false := by
  refine ⟨rfl, ?_, by decide⟩
  show Option.some _ = _
  rw [Option.some.injEq]
  show ({ scheme := lowerStr "", rest := "hello" } : GoUrl) = _
  rfl

/-- Claim C9 (amended): construction fails exactly when Go URL parsing of the
origin fails — which accepts relative URLs such as `"hello"` and rejects
genuinely malformed strings such as `"://invalid-url"` — rather than exactly
when the origin is absolute. -/
theorem newProxyServer_ok_iff_parse_ok (s : String) (p : Int) :
    constructionOk (NewProxyServer s p) = parseOk (urlParse s)
    ∧ constructionOk (NewProxyServer "://invalid-url" 8080) = false := by
  constructor
  · cases h : urlParse s <;> simp [NewProxyServer, constructionOk, parseOk, h]
  · rfl

/-- Claim C1 (behaviour at the failing input): on a miss where the forwarded
response commits status 200 and a body through the capturer, the response
actually delivered to the client carries no `X-Cache` header at all — the
`X-Cache: MISS` written after forwarding only lands in the header map, after
the status line and body were already flushed. -/
theorem missPath_xcache_header_lost :
    headerGet (handleRequest 0 [] "GET" "http://localhost/p" "curl"
      [WriterAction.writeHeader 200, WriterAction.write [104, 105]]).writer.sentHeaders
      "X-Cache" = ""
    ∧ (handleRequest 0 [] "GET" "http://localhost/p" "curl"
      [WriterAction.writeHeader 200, WriterAction.write [104, 105]]).writer.sentHeaders
      = []
    ∧ headerGet (handleRequest 0 [] "GET" "http://localhost/p" "curl"
      [WriterAction.writeHeader 200, WriterAction.write [104, 105]]).writer.headers
      "X-Cache" = "MISS"
    ∧ (handleRequest 0 [] "GET" "http://localhost/p" "curl"
      [WriterAction.writeHeader 200, WriterAction.write [104, 105]]).writer.committedStatus
      = some 200 := by
  refine ⟨rfl, rfl, ?_, rfl⟩
  rfl

/-- Claim C2 (behaviour at the failing input): a header the forwarding
collaborator writes through the capturer's `Header()` map is recorded by the
capturer but never reaches the response delivered to the client, while the
body bytes do pass through unmodified. -/
theorem capturer_header_map_divergence :
    headerGet (handleRequest 0 [] "GET" "http://localhost/p" "curl"
      [WriterAction.setHeader "Content-Type" "text/plain",
       WriterAction.writeHeader 200, WriterAction.write [104, 105]]).writer.sentHeaders
      "Content-Type" = ""
    ∧ (handleRequest 0 [] "GET" "http://localhost/p" "curl"
      [WriterAction.setHeader "Content-Type" "text/plain",
       WriterAction.writeHeader 200, WriterAction.write [104, 105]]).writer.sentBody
      = [104, 105]
    ∧ headerGet (runRecorder initialRecorder
      [WriterAction.setHeader "Content-Type" "text/plain",
       WriterAction.writeHeader 200, WriterAction.write [104, 105]]).headers
      "Content-Type" = "text/plain" := by
  refine ⟨rfl, rfl, ?_⟩
  rfl

/-- Claim C6: on the miss path, a recorded status in `[200, 400)` stores a
new entry with the captured body, headers and status, `createdAt = now` and a
5-minute TTL under the computed key; any other status leaves the store as the
lookup left it (and, when the lookup itself did not evict, exactly as it
was). -/
theorem missPath_status_gating (now : Int) (cache : Cache)
    (method url ua : String) (origin : List WriterAction)
    (hmiss : (Cache.get now cache (generateCacheKey method url ua)).1 = none) :
    ((200 ≤ (runRecorder initialRecorder origin).statusCode
        ∧ (runRecorder initialRecorder origin).statusCode < 400) →
      (handleRequest now cache method url ua origin).cache
        = Cache.set (Cache.get now cache (generateCacheKey method url ua)).2
            (generateCacheKey method url ua)
            { body := (runRecorder initialRecorder origin).body,
              headers := (runRecorder initialRecorder origin).headers,
              statusCode := (runRecorder initialRecorder origin).statusCode,
              timestamp := now, ttl := 5 * timeMinute })
    ∧ (¬ (200 ≤ (runRecorder initialRecorder origin).statusCode
        ∧ (runRecorder initialRecorder origin).statusCode < 400) →
      (handleRequest now cache method url ua origin).cache
        = (Cache.get now cache (generateCacheKey method url ua)).2)
    ∧ ((Cache.get now cache (generateCacheKey method url ua)).2 = cache →
      ¬ (200 ≤ (runRecorder initialRecorder origin).statusCode
        ∧ (runRecorder initialRecorder origin).statusCode < 400) →
      (handleRequest now cache method url ua origin).cache = cache) := by
  have hm := handleRequest_miss now cache method url ua origin hmiss
  refine ⟨fun hgate => ?_, fun hgate => ?_, fun heq hgate => ?_⟩
  · rw [hm]
    simp only [if_pos hgate]
  · rw [hm]
    simp only [if_neg hgate]
  · rw [hm]
    simp only [if_neg hgate]
    exact heq

/-- Witness for C6: a forwarded 201 response with body byte `104` is cached
under the computed key with the captured fields and the 5-minute TTL. -/
theorem missPath_status_gating_witness :
    (handleRequest 0 [] "GET" "/p" "ua"
        [WriterAction.writeHeader 201, WriterAction.write [104]]).cache
      = Cache.set [] (generateCacheKey "GET" "/p" "ua")
          { body := [104], headers := [], statusCode := 201,
            timestamp := 0, ttl := 5 * timeMinute } :=
  (missPath_status_gating 0 [] "GET" "/p" "ua"
      [WriterAction.writeHeader 201, WriterAction.write [104]] rfl).1
    (by decide)

/-- Claim C10: if the forwarding collaborator never calls `WriteHeader`, the
capturer keeps its initial status 200, so the caching gate passes and the
captured response is inserted as a 200 entry. -/
theorem missPath_default_status_cached (now : Int) (cache : Cache)
    (method url ua : String) (origin : List WriterAction)
    (hmiss : (Cache.get now cache (generateCacheKey method url ua)).1 = none)
    (hnw : ∀ s, WriterAction.writeHeader s ∉ origin) :
    (runRecorder initialRecorder origin).statusCode = 200
    ∧ (handleRequest now cache method url ua origin).cache
      = Cache.set (Cache.get now cache (generateCacheKey method url ua)).2
          (generateCacheKey method url ua)
          { body := (runRecorder initialRecorder origin).body,
            headers := (runRecorder initialRecorder origin).headers,
            statusCode := 200, timestamp := now, ttl := 5 * timeMinute } := by
  have h200 : (runRecorder initialRecorder origin).statusCode = 200 :=
    runRecorder_statusCode origin initialRecorder hnw
  refine ⟨h200, ?_⟩
  have hm := handleRequest_miss now cache method url ua origin hmiss
  rw [hm]
  rw [h200]
  simp only [if_pos (by omega : 200 ≤ 200 ∧ 200 < 400)]

/-- Witness for C10: a collaborator that only writes a body byte yields a
cached 200 entry. -/
theorem missPath_default_status_cached_witness :
    (runRecorder initialRecorder [WriterAction.write [104]]).statusCode = 200
    ∧ (handleRequest 0 [] "GET" "/p" "ua" [WriterAction.write [104]]).cache
      = Cache.set [] (generateCacheKey "GET" "/p" "ua")
          { body := [104], headers := [], statusCode := 200,
            timestamp := 0, ttl := 5 * timeMinute } :=
  missPath_default_status_cached 0 [] "GET" "/p" "ua" [WriterAction.write [104]]
    rfl (by intro s hs; simp at hs)

/-- A fresh head entry is a hit that leaves the store unchanged. -/
theorem cacheGet_cons_fresh (now : Int) (k : String) (e : CacheEntry)
    (t : Cache) (hfresh : ¬ now - e.timestamp > e.ttl) :
    Cache.get now ((k, e) :: t) k = (some e, (k, e) :: t) := by
  simp [Cache.get, lookup_cons_self, hfresh]

/-- Claim C7: on a hit, the response is replayed without forwarding — the
entry's status code is committed, its body is written verbatim, the
delivered headers carry `X-Cache: HIT`, and every header/value pair of the
entry (other than one that canonicalises to `X-Cache` itself, which the HIT
marker overwrites) appears among the delivered headers. -/
theorem hitPath_replay (now : Int) (cache : Cache) (method url ua : String)
    (origin : List WriterAction) (entry : CacheEntry)
    (hhit : (Cache.get now cache (generateCacheKey method url ua)).1 = some entry) :
    (handleRequest now cache method url ua origin).forwarded = false
    ∧ (handleRequest now cache method url ua origin).writer.committedStatus
        = some entry.statusCode
    ∧ (handleRequest now cache method url ua origin).writer.sentBody = entry.body
    ∧ headerGet (handleRequest now cache method url ua origin).writer.sentHeaders
        "X-Cache" = "HIT"
    ∧ ∀ kv ∈ entry.headers, ∀ v ∈ kv.2,
        canonicalMIMEHeaderKey kv.1 ≠ "X-Cache" →
        v ∈ headerGetValues
          (handleRequest now cache method url ua origin).writer.sentHeaders kv.1 := by
  have hm := handleRequest_hit now cache method url ua origin entry hhit
  have hF := foldAdd_outer_writer entry.headers RealWriter.init
  rw [hm, hF]
  have hx : canonicalMIMEHeaderKey "X-Cache" = "X-Cache" := by decide
  refine ⟨rfl, ?_, ?_, ?_, ?_⟩
  · simp [RealWriter.write, RealWriter.writeHeader, RealWriter.setHeader,
      RealWriter.init]
  · simp [RealWriter.write, RealWriter.writeHeader, RealWriter.setHeader,
      RealWriter.init]
  · simp only [RealWriter.write, RealWriter.writeHeader, RealWriter.setHeader,
      RealWriter.init, headerGet, headerGetValues, headerSet, hx]
    rw [lookupValues_setCanon]
    simp
  · intro kv hkv v hv hne
    simp only [RealWriter.write, RealWriter.writeHeader, RealWriter.setHeader,
      RealWriter.init, headerGetValues, headerSet, hx]
    rw [lookupValues_setCanon, if_neg hne]
    exact mem_lookupValues_foldAdd entry.headers kv v hkv hv _

/-- Witness for C7 at a concrete fresh entry: the cached 200 response with a
`Content-Type` header and body byte `104` is replayed with `X-Cache: HIT`
and no forwarding. -/
theorem hitPath_replay_witness :
    (handleRequest 50 [(generateCacheKey "GET" "/p" "ua",
        { body := [104], headers := [("Content-Type", ["text/plain"])],
          statusCode := 200, timestamp := 0, ttl := 100 })] "GET" "/p" "ua"
        [WriterAction.writeHeader 500]).forwarded = false
    ∧ (handleRequest 50 [(generateCacheKey "GET" "/p" "ua",
        { body := [104], headers := [("Content-Type", ["text/plain"])],
          statusCode := 200, timestamp := 0, ttl := 100 })] "GET" "/p" "ua"
        [WriterAction.writeHeader 500]).writer.committedStatus = some 200
    ∧ (handleRequest 50 [(generateCacheKey "GET" "/p" "ua",
        { body := [104], headers := [("Content-Type", ["text/plain"])],
          statusCode := 200, timestamp := 0, ttl := 100 })] "GET" "/p" "ua"
        [WriterAction.writeHeader 500]).writer.sentBody = [104]
    ∧ headerGet (handleRequest 50 [(generateCacheKey "GET" "/p" "ua",
        { body := [104], headers := [("Content-Type", ["text/plain"])],
          statusCode := 200, timestamp := 0, ttl := 100 })] "GET" "/p" "ua"
        [WriterAction.writeHeader 500]).writer.sentHeaders "X-Cache" = "HIT"
    ∧ "text/plain" ∈ headerGetValues (handleRequest 50 [(generateCacheKey "GET" "/p" "ua",
        { body := [104], headers := [("Content-Type", ["text/plain"])],
          statusCode := 200, timestamp := 0, ttl := 100 })] "GET" "/p" "ua"
        [WriterAction.writeHeader 500]).writer.sentHeaders "Content-Type" := by
  have h := hitPath_replay 50 [(generateCacheKey "GET" "/p" "ua",
      { body := [104], headers := [("Content-Type", ["text/plain"])],
        statusCode := 200, timestamp := 0, ttl := 100 })] "GET" "/p" "ua"
      [WriterAction.writeHeader 500]
      { body := [104], headers := [("Content-Type", ["text/plain"])],
        statusCode := 200, timestamp := 0, ttl := 100 }
      (by rw [cacheGet_cons_fresh 50 _ _ [] (by norm_num)])
  exact ⟨h.1, h.2.1, h.2.2.1, h.2.2.2.1,
    h.2.2.2.2 ("Content-Type", ["text/plain"]) (by simp) "text/plain" (by simp)
      (by decide)⟩
